import Mathlib

/-!
Verification development for the go-openapi/strfmt repository.

The repository ships a runtime-extensible format registry together with
validators for string formats (hostnames, URIs, the UUID family, ULID,
checksum formats), plus text/JSON/SQL codecs for the format value types.
The registry and validator implementations are not part of the source
snapshot (only their tests and callers are), so the definitions below are
modelled from the specification document and, where noted, from the
behaviour fixed by the repository's own test suite.

Strings are handled through their underlying character lists, so every
definition is executable and every concrete instance can be settled by
`decide`.
-/

set_option autoImplicit false

namespace Strfmt

/-! ## Character helpers -/

/-- ASCII letter test. -/
def isAsciiLetter (c : Char) : Bool :=
  ('a' ≤ c && c ≤ 'z') || ('A' ≤ c && c ≤ 'Z')

/-- ASCII digit test. -/
def isDigitChar (c : Char) : Bool :=
  '0' ≤ c && c ≤ '9'

/-- Hexadecimal digit test (either case). -/
def isHexChar (c : Char) : Bool :=
  isDigitChar c || ('a' ≤ c && c ≤ 'f') || ('A' ≤ c && c ≤ 'F')

/-- Fold an ASCII upper-case letter to lower case; other characters unchanged. -/
def lowerChar (c : Char) : Char :=
  if 'A' ≤ c && c ≤ 'Z' then Char.ofNat (c.toNat + 32) else c

/-- Numeric value of a run of decimal digit characters. -/
def digitsVal (l : List Char) : Nat :=
  l.foldl (fun a c => a * 10 + (c.toNat - 48)) 0

/-- Size in bytes of the UTF-8 encoding of a character (Go strings are
UTF-8, and the hostname length limits of §4.2 count bytes). -/
def charBytes (c : Char) : Nat :=
  if c.toNat < 128 then 1
  else if c.toNat < 2048 then 2
  else if c.toNat < 65536 then 3
  else 4

/-- UTF-8 byte length of a character list. -/
def byteLength (l : List Char) : Nat :=
  (l.map charBytes).sum

example : charBytes 'a' = 1 := by decide
example : charBytes 'é' = 2 := by decide
example : charBytes '詹' = 3 := by decide
example : charBytes '💩' = 4 := by decide
example : byteLength (String.data ("a.com")) = 5 := by decide
example : byteLength (String.data ("ôlà")) = 5 := by decide

/-! ## Format registry

Modelled from the spec: the registry implementation (`format.go`) is not in
the source snapshot.  A registry is a directory of entries keyed by the
normalized format name; `Add` replaces an existing entry but reports `false`,
`Validates` returns `false` for unknown names, and `DelByName` reports
whether an entry existed.  Mutations report their outcome only through a
boolean, never through an error value. -/

/-- Modelled from the spec: a format name is normalized by removing all
characters outside `[A-Za-z0-9]` and folding case. -/
def normalizeName (s : String) : String :=
  String.mk ((s.data.filter (fun c => isAsciiLetter c || isDigitChar c)).map lowerChar)

/-- Modelled from the spec: a registry entry holds the normalized name, the
zero-value prototype and the validator predicate. -/
structure FormatEntry (α : Type) where
  name : String
  prototype : α
  validator : String → Bool

/-- Modelled from the spec: a registry is an unordered collection of entries,
at most one per normalized name. -/
abbrev Registry (α : Type) := List (FormatEntry α)

/-- `ContainsName`: true iff an entry exists for the normalized name. -/
def ContainsName {α : Type} (r : Registry α) (nme : String) : Bool :=
  r.any (fun e => e.name == normalizeName nme)

/-- `Add`: normalizes the name; inserts a fresh entry and returns `true` when
none exists, otherwise replaces the existing entry's validator and prototype
and returns `false`. -/
def Add {α : Type} (r : Registry α) (nme : String) (proto : α) (v : String → Bool) :
    Registry α × Bool :=
  if r.any (fun e => e.name == normalizeName nme) then
    (r.map (fun e =>
      if e.name == normalizeName nme then ⟨normalizeName nme, proto, v⟩ else e), false)
  else
    (⟨normalizeName nme, proto, v⟩ :: r, true)

/-- `DelByName`: removes the entry for the normalized name and reports whether
one existed. -/
def DelByName {α : Type} (r : Registry α) (nme : String) : Registry α × Bool :=
  (r.filter (fun e => !(e.name == normalizeName nme)),
   r.any (fun e => e.name == normalizeName nme))

/-- `Validates`: looks up the normalized name; `false` when absent, otherwise
the result of the registered predicate. -/
def Validates {α : Type} (r : Registry α) (nme : String) (s : String) : Bool :=
  match r.find? (fun e => e.name == normalizeName nme) with
  | some e => e.validator s
  | none => false

example : normalizeName (String.mk ['t','e','s','t','-','f','o','r','m','a','t']) =
    normalizeName (String.mk ['t','e','s','t','f','o','r','m','a','t']) := by decide

/-! ## Splitting on a separator character

The hostname, IPv4 and IPv6 checks all work on the chunks of a string
between occurrences of a separator; `splitOnChar` is the common helper. -/

/-- Split a character list at every occurrence of `sep`.  Always returns at
least one chunk; separators are not part of any chunk. -/
def splitOnChar (sep : Char) : List Char → List (List Char)
  | [] => [[]]
  | c :: rest =>
    match splitOnChar sep rest with
    | [] => [[c]]
    | x :: xs => if c == sep then [] :: x :: xs else (c :: x) :: xs

theorem splitOnChar_ne_nil (sep : Char) (l : List Char) : splitOnChar sep l ≠ [] := by
  cases l with
  | nil => simp [splitOnChar]
  | cons c rest =>
    simp only [splitOnChar]
    cases h : splitOnChar sep rest with
    | nil => simp
    | cons x xs =>
      by_cases hc : (c == sep) = true <;> simp [hc]

/-- Every character of a chunk is a character of the original list. -/
theorem mem_of_mem_splitOnChar (sep : Char) (l : List Char) (x : List Char) (c : Char)
    (hx : x ∈ splitOnChar sep l) (hc : c ∈ x) : c ∈ l := by
  induction l generalizing x with
  | nil =>
    simp [splitOnChar] at hx
    subst hx
    simp at hc
  | cons a rest ih =>
    simp only [splitOnChar] at hx
    cases h : splitOnChar sep rest with
    | nil => exact absurd h (splitOnChar_ne_nil sep rest)
    | cons y ys =>
      rw [h] at hx
      have hymem : y ∈ splitOnChar sep rest := by rw [h]; exact List.mem_cons_self y ys
      by_cases ha : (a == sep) = true
      · simp [ha] at hx
        rcases hx with hx | hx | hx
        · subst hx; simp at hc
        · exact List.mem_cons_of_mem a (ih y hymem (hx ▸ hc))
        · exact List.mem_cons_of_mem a
            (ih x (by rw [h]; exact List.mem_cons_of_mem y hx) hc)
      · simp [ha] at hx
        rcases hx with hx | hx
        · subst hx
          rcases List.mem_cons.mp hc with hc | hc
          · simp [hc]
          · exact List.mem_cons_of_mem a (ih y hymem hc)
        · exact List.mem_cons_of_mem a
            (ih x (by rw [h]; exact List.mem_cons_of_mem y hx) hc)

/-- Every character of the original list is the separator or lies in some chunk. -/
theorem char_cases_splitOnChar (sep : Char) (l : List Char) (c : Char) (hc : c ∈ l) :
    c = sep ∨ ∃ x ∈ splitOnChar sep l, c ∈ x := by
  induction l with
  | nil => simp at hc
  | cons a rest ih =>
    simp only [splitOnChar]
    cases h : splitOnChar sep rest with
    | nil => exact absurd h (splitOnChar_ne_nil sep rest)
    | cons y ys =>
      rcases List.mem_cons.mp hc with hc | hc
      · subst hc
        by_cases ha : (c == sep) = true
        · exact Or.inl (eq_of_beq ha)
        · right
          refine ⟨c :: y, ?_, List.mem_cons_self c y⟩
          simp [ha]
      · rcases ih hc with hsep | ⟨x, hx, hcx⟩
        · exact Or.inl hsep
        · right
          rw [h] at hx
          by_cases ha : (a == sep) = true
          · exact ⟨x, by simp [ha]; exact Or.inr (List.mem_cons.mp hx), hcx⟩
          · rcases List.mem_cons.mp hx with hx | hx
            · exact ⟨a :: x, by simp [ha, hx], List.mem_cons_of_mem a hcx⟩
            · exact ⟨x, by simp [ha]; exact Or.inr hx, hcx⟩

/-- The chunk lengths together with the separators account for the whole list. -/
theorem splitOnChar_length_sum (sep : Char) (l : List Char) :
    ((splitOnChar sep l).map List.length).sum + ((splitOnChar sep l).length - 1) = l.length := by
  induction l with
  | nil => simp [splitOnChar]
  | cons a rest ih =>
    simp only [splitOnChar]
    cases h : splitOnChar sep rest with
    | nil => exact absurd h (splitOnChar_ne_nil sep rest)
    | cons y ys =>
      rw [h] at ih
      by_cases ha : (a == sep) = true
      · simp only [ha, if_true]
        simp only [List.map_cons, List.sum_cons, List.length_cons, List.length_nil] at ih ⊢
        omega
      · simp only [ha, Bool.false_eq_true, if_false]
        simp only [List.map_cons, List.sum_cons, List.length_cons, List.length_nil] at ih ⊢
        omega

/-- Each chunk is no longer than the original list. -/
theorem length_le_of_mem_splitOnChar (sep : Char) (l : List Char) (x : List Char)
    (hx : x ∈ splitOnChar sep l) : x.length ≤ l.length := by
  have h := splitOnChar_length_sum sep l
  have hmem : x.length ∈ (splitOnChar sep l).map List.length := List.mem_map_of_mem _ hx
  have := List.single_le_sum (by intro y _; exact Nat.zero_le y) _ hmem
  omega

/-! ## Hostname validator

Modelled from the spec: the hostname validator implementation is not in the
source snapshot.  Steps (a)-(d) of §4.2 are modelled directly; punycode
decoding of `xn--` labels is not modelled (such labels are treated as
ordinary letter/digit/hyphen labels), and IPv6 zone identifiers are not
accepted in hostnames (as fixed by the repository's hostname tests). -/

/-- One dotted-decimal IPv4 octet: one to three digits, value at most 255. -/
def octetOk (l : List Char) : Bool :=
  !l.isEmpty && l.length ≤ 3 && l.all isDigitChar && digitsVal l ≤ 255

/-- Modelled from the spec: a dotted IPv4 literal is four in-range numeric
octets separated by dots. -/
def isIPv4Literal (l : List Char) : Bool :=
  match splitOnChar '.' l with
  | [a, b, c, d] => octetOk a && octetOk b && octetOk c && octetOk d
  | _ => false

/-- Structural check on the colon-separated groups of an IPv6 address: all
groups are short hexadecimal runs, a missing-group run (`::`) appears at most
once, and no more than eight groups are carried. -/
def ipv6GroupsOk (gs : List (List Char)) : Bool :=
  gs.all (fun g => g.length ≤ 4 && g.all isHexChar) &&
  (match gs.countP List.isEmpty with
   | 0 => gs.length == 8
   | 1 => gs.length ≤ 8 && !((gs.headD []).isEmpty) && !((gs.getLastD []).isEmpty)
   | 2 => gs.length ≤ 8 &&
       ((gs.take 2).all List.isEmpty || (gs.drop (gs.length - 2)).all List.isEmpty)
   | 3 => gs.length == 3
   | _ => false)

/-- Modelled from the spec: a bracketed IPv6 literal (no zone identifier,
which the repository's hostname tests reject). -/
def isIPv6Literal (l : List Char) : Bool :=
  l.head? == some '[' && l.getLast? == some ']' && 2 ≤ l.length &&
  ipv6GroupsOk (splitOnChar ':' ((l.drop 1).dropLast))

/-- Drop one trailing dot (an absolute/FQDN name). -/
def stripTrailingDot (l : List Char) : List Char :=
  if l.getLast? == some '.' then l.dropLast else l

/-- Label alphabet: ASCII letters and digits, hyphen, and any non-ASCII
character (Unicode letters are permitted for non-ASCII labels). -/
def isHostLabelChar (c : Char) : Bool :=
  isAsciiLetter c || isDigitChar c || c == '-' || 127 < c.toNat

/-- One hostname label: non-empty, at most 63 UTF-8 bytes, drawn from the
label alphabet, and neither starting nor ending with a hyphen. -/
def labelOk (l : List Char) : Bool :=
  !l.isEmpty && byteLength l ≤ 63 && l.all isHostLabelChar &&
  !(l.head? == some '-') && !(l.getLast? == some '-')

/-- The dot-separated labels of a hostname, after stripping a trailing dot. -/
def hostLabels (s : String) : List (List Char) :=
  splitOnChar '.' (stripTrailingDot s.data)

/-- Steps (b)-(d) of §4.2 for a name that is not an IP literal: non-empty, at
most 255 UTF-8 bytes, every label well-formed, and not purely numeric. -/
def hostRules (l : List Char) : Bool :=
  !l.isEmpty && byteLength l ≤ 255 &&
  ((splitOnChar '.' (stripTrailingDot l)).all labelOk &&
   !((splitOnChar '.' (stripTrailingDot l)).all (fun lab => lab.all isDigitChar)))

/-- Modelled from the spec §4.2: hostname validation over a character list.
(a) bracketed IPv6 and dotted IPv4 literals are valid hostnames; (b) the
name is non-empty and at most 255 bytes, and splits on dots into labels of
at most 63 bytes; (c) every label is drawn from the label alphabet and does
not start or end with a hyphen; (d) a purely numeric name that is not an
IPv4 literal is rejected. -/
def isHostnameL (l : List Char) : Bool :=
  if isIPv6Literal l then true
  else if isIPv4Literal (stripTrailingDot l) then true
  else hostRules l

/-- `IsHostname` on strings. -/
def IsHostname (s : String) : Bool :=
  isHostnameL s.data

example : IsHostname ("a.com") = true := by decide
example : IsHostname ("1.1.1.1") = true := by decide
example : IsHostname ("1.1.1.1.") = true := by decide
example : IsHostname ("somewhere.com") = true := by decide
example : IsHostname ("www.example-hyphenated.org") = true := by decide
example : IsHostname ("888.com") = true := by decide
example : IsHostname ("localhost") = true := by decide
example : IsHostname ("x.") = true := by decide
example : IsHostname ("[2001:0db8:85a3:0000:0000:8a2e:0370:7334]") = true := by decide
example : IsHostname ("5512") = false := by decide
example : IsHostname ("www.--example.org") = false := by decide
example : IsHostname ("www.example-.org") = false := by decide
example : IsHostname ("-www.example.org") = false := by decide
example : IsHostname ("www..com") = false := by decide
example : IsHostname ("") = false := by decide
example : IsHostname (".") = false := by decide
example : IsHostname ("..") = false := by decide
example : IsHostname ("somewhere.com!") = false := by decide
example : IsHostname ("user@email.domain") = false := by decide
example : IsHostname ("256.256.256.256") = false := by decide
example : IsHostname ("192.168.219.168.254") = false := by decide
example : IsHostname ("192.168..168") = false := by decide
example : IsHostname ("localhost:81") = false := by decide
example : IsHostname ("[fe80::1%en0]") = false := by decide
example : IsHostname ("[1:2:3:4:5:6:7:8:9]") = false := by decide
example : IsHostname ("[]") = false := by decide
example : IsHostname ("[") = false := by decide
example : IsHostname ("ex=ample.com") = false := by decide
example : IsHostname ("www.ex ample.org") = false := by decide
example : IsHostname ("ôlà.ôlà") = true := by decide
example : IsHostname ("www.詹姆斯.org") = true := by decide
example : IsHostname (String.mk (List.replicate 21 'é')) = true := by decide
example : IsHostname (String.mk (List.replicate 32 'é')) = false := by decide

/-! ### Facts about the hostname branches -/

theorem length_stripTrailingDot_le (l : List Char) :
    (stripTrailingDot l).length ≤ l.length := by
  unfold stripTrailingDot
  by_cases h : (l.getLast? == some '.') = true
  · simp only [h, if_true, List.length_dropLast]
    omega
  · simp [h]

theorem length_le_stripTrailingDot_add_one (l : List Char) :
    l.length ≤ (stripTrailingDot l).length + 1 := by
  unfold stripTrailingDot
  by_cases h : (l.getLast? == some '.') = true
  · rcases l with _ | ⟨a, t⟩
    · simp at h
    · simp [h, List.length_dropLast]
  · simp [h]

theorem byteLength_append (a b : List Char) :
    byteLength (a ++ b) = byteLength a + byteLength b := by
  simp [byteLength]

theorem byteLength_eq_length_of_ascii (l : List Char) (h : ∀ c ∈ l, charBytes c = 1) :
    byteLength l = l.length := by
  induction l with
  | nil => rfl
  | cons a t ih =>
    have ha := h a (List.mem_cons_self a t)
    have ht := ih (fun c hc => h c (List.mem_cons_of_mem a hc))
    simp only [byteLength, List.map_cons, List.sum_cons, List.length_cons] at *
    omega

theorem charBytes_of_isDigitChar (c : Char) (h : isDigitChar c = true) :
    charBytes c = 1 := by
  unfold isDigitChar at h
  rw [Bool.and_eq_true] at h
  have h2 := of_decide_eq_true h.2
  rw [Char.le_def] at h2
  have h2' : c.toNat ≤ 57 := h2
  unfold charBytes
  rw [if_pos (by omega)]

theorem charBytes_of_isHexChar (c : Char) (h : isHexChar c = true) :
    charBytes c = 1 := by
  unfold isHexChar isDigitChar at h
  rw [Bool.or_eq_true, Bool.or_eq_true, Bool.and_eq_true, Bool.and_eq_true,
    Bool.and_eq_true] at h
  have hb : c.toNat < 128 := by
    rcases h with (⟨_, h2⟩ | ⟨_, h2⟩) | ⟨_, h2⟩
    · have h3 := of_decide_eq_true h2
      rw [Char.le_def] at h3
      have h3' : c.toNat ≤ 57 := h3
      omega
    · have h3 := of_decide_eq_true h2
      rw [Char.le_def] at h3
      have h3' : c.toNat ≤ 102 := h3
      omega
    · have h3 := of_decide_eq_true h2
      rw [Char.le_def] at h3
      have h3' : c.toNat ≤ 70 := h3
      omega
  unfold charBytes
  rw [if_pos hb]

theorem byteLength_le_stripTrailingDot_add_one (l : List Char) :
    byteLength l ≤ byteLength (stripTrailingDot l) + 1 := by
  unfold stripTrailingDot
  by_cases h : (l.getLast? == some '.') = true
  · rw [if_pos h]
    have hne : l ≠ [] := by
      intro h0
      subst h0
      simp at h
    have hdec := List.dropLast_append_getLast hne
    have hlast : l.getLast hne = '.' := by
      have h1 : l.getLast? = some (l.getLast hne) := List.getLast?_eq_getLast l hne
      rw [beq_iff_eq, h1] at h
      simpa using h
    have hcalc : byteLength l = byteLength l.dropLast + charBytes (l.getLast hne) := by
      calc byteLength l = byteLength (l.dropLast ++ [l.getLast hne]) := by rw [hdec]
        _ = byteLength l.dropLast + charBytes (l.getLast hne) := by
            rw [byteLength_append]
            simp [byteLength]
    have hone : charBytes (l.getLast hne) = 1 := by
      rw [hlast]
      decide
    omega
  · rw [if_neg h]
    omega

theorem ipv6GroupsOk_bounds (gs : List (List Char)) (h : ipv6GroupsOk gs = true) :
    gs.length ≤ 8 ∧ ∀ g ∈ gs, g.length ≤ 4 ∧ g.all isHexChar = true := by
  unfold ipv6GroupsOk at h
  rw [Bool.and_eq_true] at h
  obtain ⟨hall, hm⟩ := h
  refine ⟨?_, ?_⟩
  · rcases hcount : gs.countP List.isEmpty with _ | _ | _ | _ | n <;> rw [hcount] at hm
    · have : gs.length = 8 := by simpa using hm
      omega
    · rw [Bool.and_eq_true, Bool.and_eq_true] at hm
      simpa using hm.1.1
    · rw [Bool.and_eq_true] at hm
      simpa using hm.1
    · have : gs.length = 3 := by simpa using hm
      omega
    · simp at hm
  · intro g hg
    rw [List.all_eq_true] at hall
    have := hall g hg
    rw [Bool.and_eq_true] at this
    exact ⟨by simpa using this.1, this.2⟩

theorem isIPv6Literal_length_le (l : List Char) (h : isIPv6Literal l = true) :
    l.length ≤ 41 := by
  unfold isIPv6Literal at h
  rw [Bool.and_eq_true, Bool.and_eq_true, Bool.and_eq_true] at h
  obtain ⟨⟨⟨_, _⟩, hlen⟩, hg⟩ := h
  have hlen2 : 2 ≤ l.length := by simpa using hlen
  obtain ⟨hn, hmem⟩ := ipv6GroupsOk_bounds _ hg
  set inner := (l.drop 1).dropLast with hinner
  have hsum := splitOnChar_length_sum ':' inner
  set gs := splitOnChar ':' inner with hgs
  have hsumle : ((gs.map List.length).sum : Nat) ≤ 4 * gs.length := by
    have : ∀ n ∈ gs.map List.length, n ≤ 4 := by
      intro n hn'
      rw [List.mem_map] at hn'
      obtain ⟨g, hg', rfl⟩ := hn'
      exact (hmem g hg').1
    calc (gs.map List.length).sum ≤ (gs.map List.length).length * 4 :=
          List.sum_le_card_nsmul _ 4 this
      _ = 4 * gs.length := by rw [List.length_map]; ring
  have hinnerlen : inner.length = l.length - 1 - 1 := by
    rw [hinner, List.length_dropLast, List.length_drop]
  omega

theorem isIPv6Literal_chars (l : List Char) (h : isIPv6Literal l = true) (c : Char)
    (hc : c ∈ l) : c = '[' ∨ c = ']' ∨ c = ':' ∨ isHexChar c = true := by
  unfold isIPv6Literal at h
  rw [Bool.and_eq_true, Bool.and_eq_true, Bool.and_eq_true] at h
  obtain ⟨⟨⟨hhead, hlast⟩, hlen⟩, hg⟩ := h
  obtain ⟨_, hmem⟩ := ipv6GroupsOk_bounds _ hg
  rcases l with _ | ⟨a, t⟩
  · simp at hc
  · have ha : a = '[' := by simpa using hhead
    rcases List.mem_cons.mp hc with rfl | hct
    · exact Or.inl ha
    · have htne : t ≠ [] := by
        intro h0
        subst h0
        simp at hct
      have hlastt : t.getLast htne = ']' := by
        have h1 : (a :: t).getLast? = some ((a :: t).getLast (List.cons_ne_nil a t)) :=
          List.getLast?_eq_getLast _ _
        rw [h1, List.getLast_cons htne] at hlast
        simpa using hlast
      have hdecomp : t.dropLast ++ [t.getLast htne] = t := List.dropLast_append_getLast htne
      rw [← hdecomp] at hct
      rcases List.mem_append.mp hct with hdl | hlst
      · have hinner : (a :: t).drop 1 = t := by simp
        have : c ∈ (((a :: t).drop 1).dropLast) := by
          rw [hinner]
          simpa using hdl
        rcases char_cases_splitOnChar ':' _ c this with hsep | ⟨x, hx, hcx⟩
        · exact Or.inr (Or.inr (Or.inl hsep))
        · have := (hmem x hx).2
          rw [List.all_eq_true] at this
          exact Or.inr (Or.inr (Or.inr (this c hcx)))
      · rw [hlastt] at hlst
        simp at hlst
        exact Or.inr (Or.inl hlst)

theorem isIPv4Literal_octets (l : List Char) (h : isIPv4Literal l = true) :
    ∀ x ∈ splitOnChar '.' l, octetOk x = true := by
  unfold isIPv4Literal at h
  rcases hs : splitOnChar '.' l with _ | ⟨a, _ | ⟨b, _ | ⟨c, _ | ⟨d, _ | ⟨e, t⟩⟩⟩⟩⟩ <;>
    rw [hs] at h <;> simp at h
  intro x hx
  simp only [List.mem_cons, List.not_mem_nil, or_false] at hx
  rcases hx with rfl | rfl | rfl | rfl
  · exact h.1.1.1
  · exact h.1.1.2
  · exact h.1.2
  · exact h.2

theorem isIPv4Literal_length_le (l : List Char) (h : isIPv4Literal l = true) :
    l.length ≤ 15 := by
  have hoct := isIPv4Literal_octets l h
  unfold isIPv4Literal at h
  rcases hs : splitOnChar '.' l with _ | ⟨a, _ | ⟨b, _ | ⟨c, _ | ⟨d, _ | ⟨e, t⟩⟩⟩⟩⟩ <;>
    rw [hs] at h <;> simp at h
  have hsum := splitOnChar_length_sum '.' l
  rw [hs] at hsum
  have hlen : ∀ x ∈ splitOnChar '.' l, x.length ≤ 3 := by
    intro x hx
    have := hoct x hx
    unfold octetOk at this
    rw [Bool.and_eq_true, Bool.and_eq_true, Bool.and_eq_true] at this
    simpa using this.1.1.2
  rw [hs] at hlen
  have ha := hlen a (by simp)
  have hb := hlen b (by simp)
  have hc := hlen c (by simp)
  have hd := hlen d (by simp)
  simp only [List.map_cons, List.map_nil, List.sum_cons, List.sum_nil, List.length_cons,
    List.length_nil] at hsum
  omega

theorem mem_of_head?_eq {α : Type} (l : List α) (a : α) (h : l.head? = some a) : a ∈ l := by
  cases l with
  | nil => simp at h
  | cons b t =>
    simp at h
    simp [h]

theorem mem_of_getLast?_eq {α : Type} (l : List α) (a : α) (h : l.getLast? = some a) : a ∈ l := by
  have hne : l ≠ [] := by
    intro h0
    subst h0
    simp at h
  have := List.getLast?_eq_getLast l hne
  rw [this] at h
  have hv := Option.some_injective _ h
  rw [← hv]
  exact List.getLast_mem hne

theorem mem_of_mem_stripTrailingDot (l : List Char) (c : Char)
    (h : c ∈ stripTrailingDot l) : c ∈ l := by
  unfold stripTrailingDot at h
  by_cases hl : (l.getLast? == some '.') = true
  · rw [if_pos hl] at h
    exact (List.dropLast_sublist l).subset h
  · rwa [if_neg hl] at h

/-- Labels after an accepted IPv6 branch never pass a digits-only check: the
leading bracket lands in the first label. -/
theorem isIPv6Literal_not_numeric (l : List Char) (h : isIPv6Literal l = true) :
    ((splitOnChar '.' (stripTrailingDot l)).all
      (fun lab => !lab.isEmpty && lab.all isDigitChar)) = false := by
  have hh : (l.head? == some '[') = true := by
    unfold isIPv6Literal at h
    rw [Bool.and_eq_true, Bool.and_eq_true, Bool.and_eq_true] at h
    exact h.1.1.1
  have hl : (l.getLast? == some ']') = true := by
    unfold isIPv6Literal at h
    rw [Bool.and_eq_true, Bool.and_eq_true, Bool.and_eq_true] at h
    exact h.1.1.2
  have hstrip : stripTrailingDot l = l := by
    unfold stripTrailingDot
    rw [beq_iff_eq] at hl
    rw [hl]
    simp
  rcases l with _ | ⟨a, t⟩
  · simp at hh
  · have ha : a = '[' := by simpa using hh
    subst ha
    rw [hstrip]
    rw [Bool.eq_false_iff]
    intro hall
    rw [List.all_eq_true] at hall
    simp only [splitOnChar] at hall
    rcases hsp : splitOnChar '.' t with _ | ⟨y, ys⟩
    · exact absurd hsp (splitOnChar_ne_nil '.' t)
    · rw [hsp] at hall
      have hfst := hall ('[' :: y) (by simp)
      rw [Bool.and_eq_true, List.all_eq_true] at hfst
      have := hfst.2 '[' (by simp)
      simp [isDigitChar] at this

/-- C6: the hostname validator accepts `a.com` and the IPv4 literal
`1.1.1.1`, and rejects every name containing a label longer than 63 bytes,
every name longer than 255 bytes, every name with a label that starts or
ends with a hyphen, and every purely-numeric name that is not an IPv4
literal. -/
theorem C6_hostname_boundary :
    IsHostname ("a.com") = true ∧
    IsHostname ("1.1.1.1") = true ∧
    (∀ s : String, (hostLabels s).any (fun lab => decide (63 < byteLength lab)) = true →
      IsHostname s = false) ∧
    (∀ s : String, 255 < byteLength s.data → IsHostname s = false) ∧
    (∀ s : String, (hostLabels s).any
        (fun lab => lab.head? == some '-' || lab.getLast? == some '-') = true →
      IsHostname s = false) ∧
    (∀ s : String, (hostLabels s).all (fun lab => !lab.isEmpty && lab.all isDigitChar) = true →
      isIPv4Literal (stripTrailingDot s.data) = false → IsHostname s = false) := by
  refine ⟨by decide, by decide, ?_, ?_, ?_, ?_⟩
  · -- a label longer than 63 bytes
    intro s hany
    rw [List.any_eq_true] at hany
    obtain ⟨lab, hlab, hlen⟩ := hany
    rw [decide_eq_true_eq] at hlen
    unfold hostLabels at hlab
    unfold IsHostname isHostnameL
    have h6 : isIPv6Literal s.data = false := by
      rw [Bool.eq_false_iff]
      intro h6
      have hascii : ∀ c ∈ lab, charBytes c = 1 := by
        intro c hc
        have hmem : c ∈ s.data :=
          mem_of_mem_stripTrailingDot _ c (mem_of_mem_splitOnChar '.' _ lab c hlab hc)
        rcases isIPv6Literal_chars _ h6 c hmem with rfl | rfl | rfl | hhex
        · rfl
        · rfl
        · rfl
        · exact charBytes_of_isHexChar c hhex
      rw [byteLength_eq_length_of_ascii lab hascii] at hlen
      have hstriple := length_stripTrailingDot_le s.data
      have hlable := length_le_of_mem_splitOnChar '.' _ lab hlab
      have := isIPv6Literal_length_le _ h6
      omega
    have h4 : isIPv4Literal (stripTrailingDot s.data) = false := by
      rw [Bool.eq_false_iff]
      intro h4
      have hoct := isIPv4Literal_octets _ h4 lab hlab
      unfold octetOk at hoct
      rw [Bool.and_eq_true, Bool.and_eq_true, Bool.and_eq_true] at hoct
      have hdig := hoct.1.2
      rw [List.all_eq_true] at hdig
      have hascii : ∀ c ∈ lab, charBytes c = 1 := fun c hc =>
        charBytes_of_isDigitChar c (hdig c hc)
      rw [byteLength_eq_length_of_ascii lab hascii] at hlen
      have : lab.length ≤ 3 := by simpa using hoct.1.1.2
      omega
    rw [h6, h4]
    simp only [Bool.false_eq_true, if_false]
    unfold hostRules
    have hall : (splitOnChar '.' (stripTrailingDot s.data)).all labelOk = false := by
      rw [Bool.eq_false_iff]
      intro hall
      rw [List.all_eq_true] at hall
      have hok := hall lab hlab
      unfold labelOk at hok
      rw [Bool.and_eq_true, Bool.and_eq_true, Bool.and_eq_true, Bool.and_eq_true] at hok
      have : byteLength lab ≤ 63 := by simpa using hok.1.1.1.2
      omega
    rw [hall]
    simp
  · -- total length over 255 bytes
    intro s hlen
    unfold IsHostname isHostnameL
    have h6 : isIPv6Literal s.data = false := by
      rw [Bool.eq_false_iff]
      intro h6
      have hascii : ∀ c ∈ s.data, charBytes c = 1 := by
        intro c hc
        rcases isIPv6Literal_chars _ h6 c hc with rfl | rfl | rfl | hhex
        · rfl
        · rfl
        · rfl
        · exact charBytes_of_isHexChar c hhex
      rw [byteLength_eq_length_of_ascii _ hascii] at hlen
      have := isIPv6Literal_length_le _ h6
      omega
    have h4 : isIPv4Literal (stripTrailingDot s.data) = false := by
      rw [Bool.eq_false_iff]
      intro h4
      have hascii : ∀ c ∈ stripTrailingDot s.data, charBytes c = 1 := by
        intro c hc
        rcases char_cases_splitOnChar '.' _ c hc with rfl | ⟨x, hx, hcx⟩
        · rfl
        · have hoct := isIPv4Literal_octets _ h4 x hx
          unfold octetOk at hoct
          rw [Bool.and_eq_true, Bool.and_eq_true, Bool.and_eq_true] at hoct
          have hdig := hoct.1.2
          rw [List.all_eq_true] at hdig
          exact charBytes_of_isDigitChar c (hdig c hcx)
      have h15 := isIPv4Literal_length_le _ h4
      have hstrip := byteLength_le_stripTrailingDot_add_one s.data
      have heq := byteLength_eq_length_of_ascii _ hascii
      omega
    rw [h6, h4]
    simp only [Bool.false_eq_true, if_false]
    unfold hostRules
    have h255 : decide (byteLength s.data ≤ 255) = false := by
      rw [decide_eq_false_iff_not]
      omega
    rw [h255]
    simp
  · -- a label starting or ending with a hyphen
    intro s hany
    rw [List.any_eq_true] at hany
    obtain ⟨lab, hlab, hhyp⟩ := hany
    rw [Bool.or_eq_true] at hhyp
    unfold hostLabels at hlab
    have hmem : '-' ∈ lab := by
      rcases hhyp with hh | hh
      · exact mem_of_head?_eq lab '-' (by simpa using hh)
      · exact mem_of_getLast?_eq lab '-' (by simpa using hh)
    unfold IsHostname isHostnameL
    have h6 : isIPv6Literal s.data = false := by
      rw [Bool.eq_false_iff]
      intro h6
      have hin : '-' ∈ s.data :=
        mem_of_mem_stripTrailingDot _ '-' (mem_of_mem_splitOnChar '.' _ lab '-' hlab hmem)
      rcases isIPv6Literal_chars _ h6 '-' hin with h | h | h | h
      · simp at h
      · simp at h
      · simp at h
      · simp [isHexChar, isDigitChar] at h
    have h4 : isIPv4Literal (stripTrailingDot s.data) = false := by
      rw [Bool.eq_false_iff]
      intro h4
      have hoct := isIPv4Literal_octets _ h4 lab hlab
      unfold octetOk at hoct
      rw [Bool.and_eq_true, Bool.and_eq_true, Bool.and_eq_true] at hoct
      rw [List.all_eq_true] at hoct
      have := hoct.1.2 '-' hmem
      simp [isDigitChar] at this
    rw [h6, h4]
    simp only [Bool.false_eq_true, if_false]
    unfold hostRules
    have hall : (splitOnChar '.' (stripTrailingDot s.data)).all labelOk = false := by
      rw [Bool.eq_false_iff]
      intro hall
      rw [List.all_eq_true] at hall
      have hok := hall lab hlab
      unfold labelOk at hok
      rw [Bool.and_eq_true, Bool.and_eq_true, Bool.and_eq_true, Bool.and_eq_true] at hok
      rcases hhyp with hh | hh
      · rw [hh] at hok
        simpa using hok.1.2
      · rw [hh] at hok
        simpa using hok.2
    rw [hall]
    simp
  · -- purely numeric but not an IPv4 literal
    intro s hnum h4
    unfold hostLabels at hnum
    unfold IsHostname isHostnameL
    have h6 : isIPv6Literal s.data = false := by
      rw [Bool.eq_false_iff]
      intro h6
      have := isIPv6Literal_not_numeric _ h6
      rw [hnum] at this
      simp at this
    rw [h6, h4]
    simp only [Bool.false_eq_true, if_false]
    unfold hostRules
    have hdig : ((splitOnChar '.' (stripTrailingDot s.data)).all
        (fun lab => lab.all isDigitChar)) = true := by
      rw [List.all_eq_true] at hnum ⊢
      intro lab hlab
      have := hnum lab hlab
      rw [Bool.and_eq_true] at this
      exact this.2
    rw [hdig]
    simp

set_option maxRecDepth 8000 in
/-- Witness for C6: the universally quantified rejections applied to a
64-character label, a 256-character name, `www.--example.org` and `5512`. -/
theorem C6_hostname_boundary_witness :
    ((hostLabels (String.mk (List.replicate 64 'a'))).any
        (fun lab => decide (63 < byteLength lab)) = true ∧
      IsHostname (String.mk (List.replicate 64 'a')) = false) ∧
    (255 < byteLength (String.mk (List.replicate 256 'a')).data ∧
      IsHostname (String.mk (List.replicate 256 'a')) = false) ∧
    ((hostLabels ("www.--example.org")).any
        (fun lab => lab.head? == some '-' || lab.getLast? == some '-') = true ∧
      IsHostname ("www.--example.org") = false) ∧
    ((hostLabels ("5512")).all (fun lab => !lab.isEmpty && lab.all isDigitChar) = true ∧
      isIPv4Literal (stripTrailingDot (String.data ("5512"))) = false ∧
      IsHostname ("5512") = false) :=
  ⟨⟨by decide, C6_hostname_boundary.2.2.1 (String.mk (List.replicate 64 'a')) (by decide)⟩,
   ⟨by decide, C6_hostname_boundary.2.2.2.1 (String.mk (List.replicate 256 'a')) (by decide)⟩,
   ⟨by decide, C6_hostname_boundary.2.2.2.2.1 ("www.--example.org") (by decide)⟩,
   ⟨by decide, by decide,
     C6_hostname_boundary.2.2.2.2.2 ("5512") (by decide) (by decide)⟩⟩

/-! ## Registry claims -/

theorem any_name_filter_not {α : Type} (k : String) (l : Registry α) :
    (l.filter (fun e => !(e.name == k))).any (fun e => e.name == k) = false := by
  induction l with
  | nil => simp
  | cons a t ih =>
    by_cases h : (a.name == k) = true
    · simp [List.filter_cons, h, ih]
    · simp [List.filter_cons, h, ih]

theorem any_name_map_replace {α : Type} (r : Registry α) (k : String) (x : FormatEntry α)
    (hx : x.name = k) (h : r.any (fun e => e.name == k) = true) :
    (r.map (fun e => if e.name == k then x else e)).any (fun e => e.name == k) = true := by
  induction r with
  | nil => simp at h
  | cons a t ih =>
    rw [List.any_cons] at h
    rw [List.map_cons, List.any_cons]
    by_cases ha : (a.name == k) = true
    · rw [if_pos ha]
      simp [hx]
    · rw [if_neg ha]
      have ha' : (a.name == k) = false := Bool.eq_false_iff.mpr ha
      rw [ha'] at h
      simp only [Bool.false_or] at h
      rw [ha', Bool.false_or]
      exact ih h

/-- C1: on a registry without an entry for the normalized name, `Add` returns
`true`; a second `Add` under the same name returns `false` but replaces the
entry, so `Validates` evaluates the second validator on every string;
`DelByName` then returns `true` and a further `Add` returns `true` again. -/
theorem C1_registry_replace (α : Type) (r : Registry α) (n : String) (p p2 : α)
    (v v2 : String → Bool) (h : ContainsName r n = false) :
    (Add r n p v).2 = true ∧
    (Add (Add r n p v).1 n p2 v2).2 = false ∧
    (∀ s, Validates (Add (Add r n p v).1 n p2 v2).1 n s = v2 s) ∧
    (DelByName (Add (Add r n p v).1 n p2 v2).1 n).2 = true ∧
    (Add (DelByName (Add (Add r n p v).1 n p2 v2).1 n).1 n p v).2 = true := by
  unfold ContainsName at h
  have h1 : Add r n p v = (⟨normalizeName n, p, v⟩ :: r, true) := by
    unfold Add
    rw [h]
    simp
  have hany2 : ((⟨normalizeName n, p, v⟩ : FormatEntry α) :: r).any
      (fun e => e.name == normalizeName n) = true := by
    rw [List.any_cons]
    simp
  have h2 : Add (⟨normalizeName n, p, v⟩ :: r) n p2 v2 =
      (⟨normalizeName n, p2, v2⟩ ::
        r.map (fun e =>
          if e.name == normalizeName n then ⟨normalizeName n, p2, v2⟩ else e), false) := by
    unfold Add
    rw [hany2]
    simp
  have h3 : ∀ s, Validates (⟨normalizeName n, p2, v2⟩ ::
      r.map (fun e =>
        if e.name == normalizeName n then ⟨normalizeName n, p2, v2⟩ else e)) n s = v2 s := by
    intro s
    unfold Validates
    rw [List.find?_cons_of_pos _ (by simp)]
  have hany3 : ((⟨normalizeName n, p2, v2⟩ : FormatEntry α) ::
      r.map (fun e =>
        if e.name == normalizeName n then ⟨normalizeName n, p2, v2⟩ else e)).any
      (fun e => e.name == normalizeName n) = true := by
    rw [List.any_cons]
    simp
  have h4 : (DelByName (⟨normalizeName n, p2, v2⟩ ::
      r.map (fun e =>
        if e.name == normalizeName n then ⟨normalizeName n, p2, v2⟩ else e)) n).2 = true := by
    unfold DelByName
    exact hany3
  have h5 : (Add (DelByName (⟨normalizeName n, p2, v2⟩ ::
      r.map (fun e =>
        if e.name == normalizeName n then ⟨normalizeName n, p2, v2⟩ else e)) n).1 n p v).2 =
      true := by
    unfold DelByName Add
    rw [any_name_filter_not (normalizeName n)]
    simp
  rw [h1]
  rw [h2]
  exact ⟨rfl, rfl, h3, h4, h5⟩

/-- Witness for C1: the scenario of the registry test, starting from the
empty registry with the `af`/`bf` prefix validators. -/
theorem C1_registry_replace_witness :
    ContainsName ([] : Registry Unit) ("tf2") = false ∧
    (Add ([] : Registry Unit) ("tf2") () (fun s => s.data.take 2 == ['a', 'f'])).2 = true ∧
    (Add (Add ([] : Registry Unit) ("tf2") () (fun s => s.data.take 2 == ['a', 'f'])).1
      ("tf2") () (fun s => s.data.take 2 == ['b', 'f'])).2 = false ∧
    Validates (Add (Add ([] : Registry Unit) ("tf2") ()
        (fun s => s.data.take 2 == ['a', 'f'])).1
      ("tf2") () (fun s => s.data.take 2 == ['b', 'f'])).1 ("tf2") ("bfa") =
      (fun s => s.data.take 2 == ['b', 'f']) ("bfa") ∧
    (DelByName (Add (Add ([] : Registry Unit) ("tf2") ()
        (fun s => s.data.take 2 == ['a', 'f'])).1
      ("tf2") () (fun s => s.data.take 2 == ['b', 'f'])).1 ("tf2")).2 = true ∧
    (Add (DelByName (Add (Add ([] : Registry Unit) ("tf2") ()
        (fun s => s.data.take 2 == ['a', 'f'])).1
      ("tf2") () (fun s => s.data.take 2 == ['b', 'f'])).1 ("tf2")).1
      ("tf2") () (fun s => s.data.take 2 == ['a', 'f'])).2 = true := by
  have h := C1_registry_replace Unit [] ("tf2") () ()
    (fun s => s.data.take 2 == ['a', 'f']) (fun s => s.data.take 2 == ['b', 'f'])
    (by decide)
  exact ⟨by decide, h.1, h.2.1, h.2.2.1 ("bfa"), h.2.2.2.1, h.2.2.2.2⟩

/-- C2: names with equal normalized forms are the same registry key:
registering under one makes `ContainsName` true for the other, and
`ContainsName` agrees on any two such names. -/
theorem C2_name_normalization (α : Type) (r : Registry α) (n1 n2 : String) (p : α)
    (v : String → Bool) (h : normalizeName n1 = normalizeName n2) :
    ContainsName (Add r n1 p v).1 n2 = true ∧
    ContainsName r n1 = ContainsName r n2 := by
  constructor
  · unfold ContainsName Add
    rw [← h]
    by_cases hc : r.any (fun e => e.name == normalizeName n1) = true
    · rw [if_pos hc]
      exact any_name_map_replace r (normalizeName n1) ⟨normalizeName n1, p, v⟩ rfl hc
    · rw [if_neg hc]
      rw [List.any_cons]
      simp
  · unfold ContainsName
    rw [h]

/-- Witness for C2: `test-format` and `testformat` normalize identically, so
registering the first makes lookup by the second succeed. -/
theorem C2_name_normalization_witness :
    normalizeName ("test-format") = normalizeName ("testformat") ∧
    ContainsName (Add ([] : Registry Unit) ("test-format") () (fun _ => true)).1
      ("testformat") = true ∧
    ContainsName ([] : Registry Unit) ("test-format") =
      ContainsName ([] : Registry Unit) ("testformat") := by
  have h := C2_name_normalization Unit [] ("test-format") ("testformat") () (fun _ => true)
    (by decide)
  exact ⟨by decide, h.1, h.2⟩

/-- C3: `Validates` on an unregistered normalized name returns `false` (never
an error); `Add` and `DelByName` report their outcome only through the
returned boolean: the deletion flag is exactly the prior containment (so
`DelByName` on an absent name returns `false`) and the addition flag is its
negation. -/
theorem C3_unknown_name_no_error (α : Type) (r : Registry α) (n s : String) (p : α)
    (v : String → Bool) :
    (ContainsName r n = false → Validates r n s = false) ∧
    (DelByName r n).2 = ContainsName r n ∧
    (Add r n p v).2 = !ContainsName r n := by
  refine ⟨?_, rfl, ?_⟩
  · intro h
    unfold ContainsName at h
    unfold Validates
    have : r.find? (fun e => e.name == normalizeName n) = none := by
      rw [List.find?_eq_none]
      intro e he
      rw [List.any_eq_false] at h
      exact h e he
    rw [this]
  · unfold Add ContainsName
    by_cases hc : r.any (fun e => e.name == normalizeName n) = true
    · rw [if_pos hc, hc]
      rfl
    · rw [if_neg hc]
      rw [Bool.not_eq_true] at hc
      rw [hc]
      rfl

/-- Witness for C3: the unknown name `unknown` on the empty registry. -/
theorem C3_unknown_name_no_error_witness :
    ContainsName ([] : Registry Unit) ("unknown") = false ∧
    Validates ([] : Registry Unit) ("unknown") ("") = false ∧
    (DelByName ([] : Registry Unit) ("unknown")).2 = ContainsName ([] : Registry Unit)
      ("unknown") ∧
    (Add ([] : Registry Unit) ("unknown") () (fun _ => true)).2 =
      !ContainsName ([] : Registry Unit) ("unknown") := by
  have h := C3_unknown_name_no_error Unit [] ("unknown") ("") () (fun _ => true)
  exact ⟨by decide, h.1 (by decide), h.2.1, h.2.2⟩

/-! ## ULID validator

Modelled from the spec §4.5: the ULID implementation (`ulid.go`) is not in
the source snapshot.  A ULID is 26 characters of the Crockford base32
alphabet (digits and letters except `I`, `L`, `O`, `U`; case-insensitive on
input) whose first symbol decodes to at most 7. -/

/-- Crockford base32 value of a character, case-insensitive; `none` for a
character outside the alphabet (`I`, `L`, `O`, `U` are excluded). -/
def crockfordVal (c : Char) : Option Nat :=
  if isDigitChar c then some (c.toNat - 48)
  else
    match (if 'a' ≤ c && c ≤ 'z' then Char.ofNat (c.toNat - 32) else c) with
    | 'A' => some 10
    | 'B' => some 11
    | 'C' => some 12
    | 'D' => some 13
    | 'E' => some 14
    | 'F' => some 15
    | 'G' => some 16
    | 'H' => some 17
    | 'J' => some 18
    | 'K' => some 19
    | 'M' => some 20
    | 'N' => some 21
    | 'P' => some 22
    | 'Q' => some 23
    | 'R' => some 24
    | 'S' => some 25
    | 'T' => some 26
    | 'V' => some 27
    | 'W' => some 28
    | 'X' => some 29
    | 'Y' => some 30
    | 'Z' => some 31
    | _ => none

/-- The first symbol of a ULID must decode to at most 7. -/
def ulidFirstOk (l : List Char) : Bool :=
  match l with
  | c :: _ =>
    match crockfordVal c with
    | some v => v ≤ 7
    | none => false
  | [] => false

/-- `IsULID`: exactly 26 characters, all in the Crockford alphabet, and the
first symbol's value is at most 7 (so the 130 carried bits fit in 128). -/
def IsULID (s : String) : Bool :=
  s.data.length == 26 &&
  s.data.all (fun c => (crockfordVal c).isSome) &&
  ulidFirstOk s.data

theorem ulidFirstOk_iff (l : List Char) : ulidFirstOk l = true ↔
    ∃ c0 v0, l.head? = some c0 ∧ crockfordVal c0 = some v0 ∧ v0 ≤ 7 := by
  cases l with
  | nil => simp [ulidFirstOk]
  | cons c t =>
    unfold ulidFirstOk
    cases hv : crockfordVal c with
    | none => simp [hv]
    | some v => simp [hv]

/-- `ParseULID`: the decoded 128-bit value of a valid ULID text. -/
def ParseULID (s : String) : Option Nat :=
  if IsULID s then
    some (s.data.foldl (fun a c => a * 32 + (crockfordVal c).getD 0) 0)
  else none

example : IsULID ("01EYXZVGBHG26MFTG4JWR4K558") = true := by decide
example : IsULID ("01EYXZW663G7PYHVSQ8WTMDA67") = true := by decide
example : IsULID ("7ZZZZZZZZZ0000000000000000") = true := by decide
example : IsULID ("00000000000000000000000000") = true := by decide
example : IsULID ("not-a-ulid") = false := by decide
example : IsULID ("81EYY0NEYJZZZZZZZZZZZZZZZZ") = false := by decide
example : IsULID ("7ZZZZZZZZZ000000000000000L") = false := by decide
example : IsULID ("01eyxzvgbhg26mftg4jwr4k558") = true := by decide

/-- C4: the ULID validator accepts exactly the 26-character strings over the
Crockford base32 alphabet whose first symbol decodes to at most 7; the two
boundary vectors behave as stated and any string containing `I`, `L`, `O`
or `U` is rejected. -/
theorem C4_ulid_validator :
    (∀ s : String, IsULID s = true ↔
      (s.data.length = 26 ∧ (∀ c ∈ s.data, (crockfordVal c).isSome = true) ∧
       ∃ c0 v0, s.data.head? = some c0 ∧ crockfordVal c0 = some v0 ∧ v0 ≤ 7)) ∧
    IsULID ("7ZZZZZZZZZZZZZZZZZZZZZZZZZ") = true ∧
    IsULID ("8000000000FJ2MMFJ3ATV3XB2C") = false ∧
    (∀ s : String,
      s.data.any (fun c => c == 'I' || c == 'L' || c == 'O' || c == 'U') = true →
      IsULID s = false) := by
  refine ⟨?_, by decide, by decide, ?_⟩
  · intro s
    unfold IsULID
    rw [Bool.and_eq_true, Bool.and_eq_true]
    constructor
    · rintro ⟨⟨hlen, hall⟩, hfst⟩
      exact ⟨by simpa using hlen, by rw [List.all_eq_true] at hall; exact hall,
        (ulidFirstOk_iff s.data).mp hfst⟩
    · rintro ⟨hlen, hall, hfst⟩
      exact ⟨⟨by simpa using hlen, by rw [List.all_eq_true]; exact hall⟩,
        (ulidFirstOk_iff s.data).mpr hfst⟩
  · intro s hany
    rw [List.any_eq_true] at hany
    obtain ⟨c, hc, hcl⟩ := hany
    have hval : crockfordVal c = none := by
      simp only [Bool.or_eq_true, beq_iff_eq] at hcl
      rcases hcl with ((rfl | rfl) | rfl) | rfl <;> rfl
    rw [Bool.eq_false_iff]
    intro ht
    unfold IsULID at ht
    rw [Bool.and_eq_true, Bool.and_eq_true, List.all_eq_true] at ht
    have := ht.1.2 c hc
    rw [hval] at this
    simp at this

/-- Witness for C4: the valid/invalid boundary vectors instantiate the
equivalence, and `7ZZZZZZZZZ000000000000000U` instantiates the excluded
letter rejection. -/
theorem C4_ulid_validator_witness :
    ((String.data ("7ZZZZZZZZZZZZZZZZZZZZZZZZZ")).length = 26 ∧
      IsULID ("7ZZZZZZZZZ000000000000000U") = false) ∧
    (String.data ("7ZZZZZZZZZ000000000000000U")).any
      (fun c => c == 'I' || c == 'L' || c == 'O' || c == 'U') = true :=
  ⟨⟨((C4_ulid_validator.1 ("7ZZZZZZZZZZZZZZZZZZZZZZZZZ")).mp (by decide)).1,
    C4_ulid_validator.2.2.2 ("7ZZZZZZZZZ000000000000000U") (by decide)⟩,
   by decide⟩

/-! ## UUID family

Modelled from the spec §4.4: the UUID validators are not in the source
snapshot.  A textual UUID is 32 hex digits, either ungrouped or grouped
`8-4-4-4-12` with hyphens; the versioned validators additionally pin the
version nibble (13th hex digit) and require RFC variant bits `10xx` in the
17th hex digit. -/

/-- Value of a hexadecimal digit character. -/
def hexVal (c : Char) : Nat :=
  if isDigitChar c then c.toNat - 48
  else if 'a' ≤ c && c ≤ 'f' then c.toNat - 87
  else if 'A' ≤ c && c ≤ 'F' then c.toNat - 55
  else 0

/-- Strip a leading hyphen. -/
def expectDash : List Char → Option (List Char)
  | '-' :: r => some r
  | _ => none

@[simp]
theorem expectDash_cons (r : List Char) : expectDash ('-' :: r) = some r := rfl

/-- Remove the four hyphens of an `8-4-4-4-12` grouped UUID, returning the 32
bare digits; `none` when the hyphens are not at those positions. -/
def unhyphenUUID (l : List Char) : Option (List Char) :=
  (expectDash (l.drop 8)).bind (fun r1 =>
  (expectDash (r1.drop 4)).bind (fun r2 =>
  (expectDash (r2.drop 4)).bind (fun r3 =>
  (expectDash (r3.drop 4)).map (fun g5 =>
    l.take 8 ++ r1.take 4 ++ r2.take 4 ++ r3.take 4 ++ g5))))

/-- The 32 hex digits of a textual UUID: the string itself when ungrouped
(length 32), the hyphen-stripped digits when grouped (length 36), `none`
otherwise. -/
def uuidHex (s : String) : Option (List Char) :=
  if s.data.length == 32 then
    if s.data.all isHexChar then some s.data else none
  else if s.data.length == 36 then
    match unhyphenUUID s.data with
    | some h => if h.all isHexChar then some h else none
    | none => none
  else none

/-- `IsUUID`: generic UUID validation, any version and variant. -/
def IsUUID (s : String) : Bool :=
  (uuidHex s).isSome

/-- The version nibble: 13th hex digit. -/
def versionNibble (h : List Char) : Nat :=
  hexVal (h.getD 12 '0')

/-- The variant nibble: 17th hex digit; RFC variant means top bits `10`,
i.e. a value in `8..11`. -/
def variantNibble (h : List Char) : Nat :=
  hexVal (h.getD 16 '0')

/-- Versioned UUID validation: well-formed, version nibble equal to `ver`,
and RFC variant bits. -/
def IsUUIDVersion (ver : Nat) (s : String) : Bool :=
  match uuidHex s with
  | some h => versionNibble h == ver && (8 ≤ variantNibble h && variantNibble h ≤ 11)
  | none => false

/-- `IsUUID3`. -/
def IsUUID3 (s : String) : Bool := IsUUIDVersion 3 s

/-- `IsUUID4`. -/
def IsUUID4 (s : String) : Bool := IsUUIDVersion 4 s

/-- `IsUUID5`. -/
def IsUUID5 (s : String) : Bool := IsUUIDVersion 5 s

/-- `IsUUID7`. -/
def IsUUID7 (s : String) : Bool := IsUUIDVersion 7 s

/-- Regroup 32 bare hex digits into the `8-4-4-4-12` hyphenated form. -/
def hyphenateUUID (h : List Char) : List Char :=
  h.take 8 ++ '-' :: ((h.drop 8).take 4 ++ '-' :: (((h.drop 8).drop 4).take 4 ++ '-' ::
    ((((h.drop 8).drop 4).drop 4).take 4 ++ '-' :: (((h.drop 8).drop 4).drop 4).drop 4)))

example : IsUUID ("b9cf00cf-8b4c-4a2e-9e43-1f2a3b4c5d6e") = true := by decide
example : IsUUID ("b9cf00cf8b4c4a2e9e431f2a3b4c5d6e") = true := by decide
example : IsUUID4 ("b9cf00cf-8b4c-4a2e-9e43-1f2a3b4c5d6e") = true := by decide
example : IsUUID3 ("b9cf00cf-8b4c-4a2e-9e43-1f2a3b4c5d6e") = false := by decide
example : IsUUID3 ("a3bb189e-8bf9-3888-9912-ace4e6543002") = true := by decide
example : IsUUID ("not-a-uuid") = false := by decide
example : IsUUID ("b9cf00cf8b4c-4a2e-9e431f2a3b4c5d6e") = false := by decide

theorem unhyphenUUID_append (a b c d e : List Char) (ha : a.length = 8)
    (hb : b.length = 4) (hc : c.length = 4) (hd : d.length = 4) :
    unhyphenUUID (a ++ '-' :: (b ++ '-' :: (c ++ '-' :: (d ++ '-' :: e)))) =
      some (a ++ (b ++ (c ++ (d ++ e)))) := by
  unfold unhyphenUUID
  rw [List.drop_left' ha, expectDash_cons, Option.some_bind]
  rw [List.drop_left' hb, expectDash_cons, Option.some_bind]
  rw [List.drop_left' hc, expectDash_cons, Option.some_bind]
  rw [List.drop_left' hd, expectDash_cons, Option.map_some']
  rw [List.take_left' ha, List.take_left' hb, List.take_left' hc, List.take_left' hd]
  simp [List.append_assoc]

theorem unhyphen_hyphenate (h : List Char) (hl : h.length = 32) :
    unhyphenUUID (hyphenateUUID h) = some h := by
  have ha : (h.take 8).length = 8 := by
    rw [List.length_take]
    omega
  have hb : ((h.drop 8).take 4).length = 4 := by
    rw [List.length_take, List.length_drop]
    omega
  have hc : (((h.drop 8).drop 4).take 4).length = 4 := by
    rw [List.length_take, List.length_drop, List.length_drop]
    omega
  have hd : ((((h.drop 8).drop 4).drop 4).take 4).length = 4 := by
    rw [List.length_take, List.length_drop, List.length_drop, List.length_drop]
    omega
  unfold hyphenateUUID
  rw [unhyphenUUID_append _ _ _ _ _ ha hb hc hd]
  rw [List.take_append_drop, List.take_append_drop, List.take_append_drop,
    List.take_append_drop]

theorem hyphenateUUID_length (h : List Char) (hl : h.length = 32) :
    (hyphenateUUID h).length = 36 := by
  unfold hyphenateUUID
  simp only [List.length_append, List.length_cons, List.length_take, List.length_drop]
  omega

theorem uuidHex_hyphenate (h : List Char) (hl : h.length = 32) :
    uuidHex (String.mk (hyphenateUUID h)) = uuidHex (String.mk h) := by
  unfold uuidHex
  simp only [String.data]
  rw [hyphenateUUID_length h hl, unhyphen_hyphenate h hl]
  rw [hl]
  simp

/-- C5: a well-formed UUID string whose version nibble differs from the
required version is rejected by the versioned validator while the generic
validator accepts it; hyphen-grouped and ungrouped forms validate
identically for every validator; and strings whose length is neither 32 nor
36 (in particular partially hyphenated forms) are rejected by all of them. -/
theorem C5_uuid_version_variant :
    (∀ (s : String) (h : List Char) (v : Nat),
      uuidHex s = some h → (v = 3 ∨ v = 4 ∨ v = 5 ∨ v = 7) → versionNibble h ≠ v →
      IsUUIDVersion v s = false ∧ IsUUID s = true) ∧
    (∀ h : List Char, h.length = 32 →
      IsUUID (String.mk (hyphenateUUID h)) = IsUUID (String.mk h) ∧
      ∀ v : Nat, IsUUIDVersion v (String.mk (hyphenateUUID h)) =
        IsUUIDVersion v (String.mk h)) ∧
    (∀ s : String, s.data.length ≠ 32 → s.data.length ≠ 36 →
      IsUUID s = false ∧ ∀ v : Nat, IsUUIDVersion v s = false) := by
  have hver : ∀ (v : Nat) (s : String) (h : List Char), uuidHex s = some h →
      IsUUIDVersion v s =
        (versionNibble h == v && (8 ≤ variantNibble h && variantNibble h ≤ 11)) := by
    intro v s h hhex
    unfold IsUUIDVersion
    rw [hhex]
  refine ⟨?_, ?_, ?_⟩
  · intro s h v hhex _hv hne
    constructor
    · rw [hver v s h hhex]
      have : (versionNibble h == v) = false := by
        rw [beq_eq_false_iff_ne]
        exact hne
      rw [this, Bool.false_and]
    · unfold IsUUID
      rw [hhex]
      rfl
  · intro h hl
    have hq := uuidHex_hyphenate h hl
    constructor
    · unfold IsUUID
      rw [hq]
    · intro v
      unfold IsUUIDVersion
      rw [hq]
  · intro s h32 h36
    have hb32 : (s.data.length == 32) = false := by
      rw [beq_eq_false_iff_ne]
      exact h32
    have hb36 : (s.data.length == 36) = false := by
      rw [beq_eq_false_iff_ne]
      exact h36
    have hnone : uuidHex s = none := by
      unfold uuidHex
      rw [hb32, hb36]
      simp
    constructor
    · unfold IsUUID
      rw [hnone]
      rfl
    · intro v
      unfold IsUUIDVersion
      rw [hnone]

/-- Witness for C5: a concrete version-4 UUID fails the UUID3 validator but
passes the generic one; its grouped and ungrouped forms agree; and a
partially hyphenated 34-character form is rejected everywhere. -/
theorem C5_uuid_version_variant_witness :
    (uuidHex ("b9cf00cf-8b4c-4a2e-9e43-1f2a3b4c5d6e") =
        some (String.data ("b9cf00cf8b4c4a2e9e431f2a3b4c5d6e")) ∧
      versionNibble (String.data ("b9cf00cf8b4c4a2e9e431f2a3b4c5d6e")) ≠ 3 ∧
      IsUUIDVersion 3 ("b9cf00cf-8b4c-4a2e-9e43-1f2a3b4c5d6e") = false ∧
      IsUUID ("b9cf00cf-8b4c-4a2e-9e43-1f2a3b4c5d6e") = true) ∧
    (IsUUID (String.mk (hyphenateUUID (String.data ("b9cf00cf8b4c4a2e9e431f2a3b4c5d6e")))) =
        IsUUID (String.mk (String.data ("b9cf00cf8b4c4a2e9e431f2a3b4c5d6e"))) ∧
      IsUUIDVersion 4
          (String.mk (hyphenateUUID (String.data ("b9cf00cf8b4c4a2e9e431f2a3b4c5d6e")))) =
        IsUUIDVersion 4 (String.mk (String.data ("b9cf00cf8b4c4a2e9e431f2a3b4c5d6e")))) ∧
    (IsUUID ("b9cf00cf8b4c-4a2e-9e431f2a3b4c5d6e") = false ∧
      IsUUIDVersion 4 ("b9cf00cf8b4c-4a2e-9e431f2a3b4c5d6e") = false) := by
  have h1 := C5_uuid_version_variant.1 ("b9cf00cf-8b4c-4a2e-9e43-1f2a3b4c5d6e")
    (String.data ("b9cf00cf8b4c4a2e9e431f2a3b4c5d6e")) 3 (by decide)
    (Or.inl rfl) (by decide)
  have h2 := C5_uuid_version_variant.2.1 (String.data ("b9cf00cf8b4c4a2e9e431f2a3b4c5d6e"))
    (by decide)
  have h3 := C5_uuid_version_variant.2.2 ("b9cf00cf8b4c-4a2e-9e431f2a3b4c5d6e")
    (by decide) (by decide)
  exact ⟨⟨by decide, by decide, h1.1, h1.2⟩, ⟨h2.1, h2.2 4⟩, ⟨h3.1, h3.2 4⟩⟩

/-! ## URI validator

Modelled from the spec §4.3: the URI validator is not in the source
snapshot.  Validation requires a mandatory scheme, `//` before any
authority, a host that satisfies the hostname validator (with a bracketed
IPv6 form that admits a `%25`-introduced zone identifier and rejects a
second port), exactly two hex digits after every `%`, and no unescaped
whitespace, angle brackets or backslashes.  Path, query and fragment
contents beyond these global character rules are not further analysed. -/

/-- Split at the first occurrence of `sep`; `none` when absent. -/
def splitFirstChar (sep : Char) : List Char → Option (List Char × List Char)
  | [] => none
  | c :: rest =>
    if c == sep then some ([], rest)
    else
      match splitFirstChar sep rest with
      | some (a, b) => some (c :: a, b)
      | none => none

/-- Split at the last occurrence of `sep`; `none` when absent. -/
def splitLastChar (sep : Char) (l : List Char) : Option (List Char × List Char) :=
  match splitFirstChar sep l.reverse with
  | some (a, b) => some (b.reverse, a.reverse)
  | none => none

/-- Every `%` is followed by exactly two hexadecimal digits. -/
def percentOk : List Char → Bool
  | [] => true
  | '%' :: a :: b :: rest => isHexChar a && isHexChar b && percentOk rest
  | '%' :: _ => false
  | _ :: rest => percentOk rest

/-- Characters rejected anywhere in a URI: whitespace and control
characters, angle brackets and backslash. -/
def isIllegalURIChar (c : Char) : Bool :=
  c == ' ' || c == '<' || c == '>' || c == '\\' || c.toNat < 32

/-- Scheme: a letter followed by letters, digits, `+`, `-` or `.`. -/
def schemeOk (l : List Char) : Bool :=
  match l with
  | [] => false
  | c :: rest =>
    isAsciiLetter c &&
    rest.all (fun d => isAsciiLetter d || isDigitChar d || d == '+' || d == '-' || d == '.')

/-- Port: decimal digits (possibly empty). -/
def portOk (l : List Char) : Bool :=
  l.all isDigitChar

/-- Inside of a bracketed URI IPv6 host: an IPv6 group structure, with an
optional zone identifier that must be introduced by the percent-encoded
`%25`. -/
def uriIPv6Ok (inner : List Char) : Bool :=
  match splitFirstChar '%' inner with
  | none => ipv6GroupsOk (splitOnChar ':' inner)
  | some (addr, zone) =>
    ipv6GroupsOk (splitOnChar ':' addr) &&
    (match zone with
     | '2' :: '5' :: z => !z.isEmpty
     | _ => false)

/-- Host with optional port: either a bracketed IPv6 literal followed by at
most one `:port`, or a hostname with an optional all-digits `:port`. -/
def hostPortOk (hp : List Char) : Bool :=
  match hp with
  | '[' :: rest =>
    (match splitFirstChar ']' rest with
     | some (inner, after) =>
       uriIPv6Ok inner &&
       (match after with
        | [] => true
        | ':' :: port => portOk port
        | _ => false)
     | none => false)
  | _ =>
    match splitLastChar ':' hp with
    | some (h, port) => portOk port && isHostnameL h
    | none => isHostnameL hp

/-- Authority: optional `userinfo@`, then host and optional port. -/
def authorityOk (auth : List Char) : Bool :=
  match splitFirstChar '@' auth with
  | some (_, hp) => hostPortOk hp
  | none => hostPortOk auth

/-- Modelled from the spec §4.3: strict absolute-URI validation. -/
def IsURI (s : String) : Bool :=
  s.data.all (fun c => !isIllegalURIChar c) &&
  percentOk s.data &&
  (match splitFirstChar ':' s.data with
   | none => false
   | some (sch, rest) =>
     schemeOk sch &&
     (match rest with
      | '/' :: '/' :: rest2 =>
        authorityOk (rest2.takeWhile (fun c => !(c == '/' || c == '?' || c == '#')))
      | _ => true))

example : IsURI ("http://localhost/") = true := by decide
example : IsURI ("http://example.w3.org/%20") = true := by decide
example : IsURI ("http://example.w3.org/path%20with%20spaces.html") = true := by decide
example : IsURI ("mailto:John.Doe@example.com") = true := by decide
example : IsURI ("tel:+1-816-555-1212") = true := by decide
example : IsURI ("urn:oasis:names:specification:docbook:dtd:xml:4.1.2") = true := by decide
example : IsURI ("https://git.openstack.org:443/sigmavirus24") = true := by decide
example : IsURI ("telnet://192.0.2.16:80/") = true := by decide
example : IsURI ("ldap://[2001:db8::7]/c=GB?objectClass?one") = true := by decide
example : IsURI ("http://www.richardsonnen.com/") = true := by decide
example : IsURI ("ftp://ftp.is.co.za/rfc/rfc1808.txt") = true := by decide
example : IsURI ("git://github.com") = true := by decide
example : IsURI ("") = false := by decide
example : IsURI ("foo") = false := by decide
example : IsURI ("foo@bar") = false := by decide
example : IsURI ("://bob/") = false := by decide
example : IsURI ("1http://bob") = false := by decide
example : IsURI ("http:////foo.html") = false := by decide
example : IsURI ("http://example.w3.org/%illegal.html") = false := by decide
example : IsURI ("http://example.w3.org/%a") = false := by decide
example : IsURI ("http://example.w3.org/%a/foo") = false := by decide
example : IsURI ("http://example.w3.org/%at") = false := by decide
example : IsURI ("http://www.exa mple.org") = false := by decide
example : IsURI ("2013.05.29_14:33:41") = false := by decide

/-- C7: the URI validator rejects every string in which some `%` is not
followed by exactly two hexadecimal digits — in particular the three
incomplete-escape samples — while accepting correctly percent-escaped
absolute URIs. -/
theorem C7_uri_percent_escapes :
    (∀ s : String, percentOk s.data = false → IsURI s = false) ∧
    IsURI ("http://example.w3.org/%a") = false ∧
    IsURI ("http://example.w3.org/%at") = false ∧
    IsURI ("http://example.w3.org/%illegal.html") = false ∧
    IsURI ("http://example.w3.org/%20") = true ∧
    IsURI ("http://example.w3.org/path%20with%20spaces.html") = true := by
  refine ⟨?_, by decide, by decide, by decide, by decide, by decide⟩
  intro s hp
  unfold IsURI
  rw [hp]
  simp

/-- Witness for C7: the incomplete escape `%a` instantiates the universal
rejection. -/
theorem C7_uri_percent_escapes_witness :
    percentOk (String.data ("http://example.w3.org/%a")) = false ∧
    IsURI ("http://example.w3.org/%a") = false :=
  ⟨by decide, C7_uri_percent_escapes.1 ("http://example.w3.org/%a") (by decide)⟩

/-! ## ISBN-10

Modelled from the spec §4.6: the checksum validators are not in the source
snapshot.  An ISBN-10 is nine digits plus a check character (digit or `X`
standing for 10) whose weighted sum `Σ i·d_i`, `i = 1..10`, is divisible
by 11. -/

/-- Value of an ISBN-10 symbol: `X` counts as 10, a digit as itself. -/
def isbnSymVal (c : Char) : Nat :=
  if c == 'X' then 10 else c.toNat - 48

/-- The weighted ISBN-10 sum `Σ i·d_i` over the ten symbols, `i = 1..10`. -/
def isbn10Sum (l : List Char) : Nat :=
  (l.enum.map (fun p => (p.1 + 1) * isbnSymVal p.2)).sum

/-- The last symbol is a digit or `X`. -/
def lastCheckOk (l : List Char) : Bool :=
  match l.getLast? with
  | some c => isDigitChar c || c == 'X'
  | none => false

/-- `IsISBN10`: ten symbols, the first nine digits, the last a digit or `X`,
and the weighted sum divisible by 11. -/
def IsISBN10 (s : String) : Bool :=
  s.data.length == 10 &&
  (s.data.take 9).all isDigitChar &&
  lastCheckOk s.data &&
  decide (isbn10Sum s.data % 11 = 0)

theorem lastCheckOk_iff (l : List Char) : lastCheckOk l = true ↔
    ∃ c, l.getLast? = some c ∧ (isDigitChar c = true ∨ c = 'X') := by
  unfold lastCheckOk
  cases hl : l.getLast? with
  | none => simp
  | some c => simp

example : IsISBN10 ("0321751043") = true := by decide
example : IsISBN10 ("836217463") = false := by decide
example : IsISBN10 ("0321751042") = false := by decide
example : IsISBN10 ("155860832X") = true := by decide

/-- C8: a string is a valid ISBN-10 iff it is ten symbols long with nine
leading digits, a digit-or-`X` check character, and weighted sum
`Σ i·d_i ≡ 0 (mod 11)`; `0321751043` validates and `836217463` does not. -/
theorem C8_isbn10_checksum :
    (∀ s : String, IsISBN10 s = true ↔
      (s.data.length = 10 ∧ (∀ c ∈ s.data.take 9, isDigitChar c = true) ∧
       (∃ c, s.data.getLast? = some c ∧ (isDigitChar c = true ∨ c = 'X')) ∧
       isbn10Sum s.data % 11 = 0)) ∧
    IsISBN10 ("0321751043") = true ∧
    IsISBN10 ("836217463") = false := by
  refine ⟨?_, by decide, by decide⟩
  intro s
  unfold IsISBN10
  rw [Bool.and_eq_true, Bool.and_eq_true, Bool.and_eq_true]
  constructor
  · rintro ⟨⟨⟨hlen, hdig⟩, hlast⟩, hsum⟩
    exact ⟨by simpa using hlen, by rw [List.all_eq_true] at hdig; exact hdig,
      (lastCheckOk_iff s.data).mp hlast, of_decide_eq_true hsum⟩
  · rintro ⟨hlen, hdig, hlast, hsum⟩
    exact ⟨⟨⟨by simp [hlen], by rw [List.all_eq_true]; exact hdig⟩,
      (lastCheckOk_iff s.data).mpr hlast⟩, decide_eq_true hsum⟩

/-- Witness for C8: the equivalence instantiated at `0321751043`. -/
theorem C8_isbn10_checksum_witness :
    (String.data ("0321751043")).length = 10 ∧
    isbn10Sum (String.data ("0321751043")) % 11 = 0 ∧
    IsISBN10 ("836217463") = false := by
  have h := (C8_isbn10_checksum.1 ("0321751043")).mp (by decide)
  exact ⟨h.1, h.2.2.2, C8_isbn10_checksum.2.2⟩

/-! ## JSON decoding of UUID-family and ULID values

Modelled from the spec §6/§7: the per-type `UnmarshalJSON` implementations
are not in the source snapshot.  Decoding the JSON token `null` yields the
type's zero value without error; decoding a JSON string validates the
content and fails with an error on malformed input; any other token is an
error.  A UUID value is its text (zero value: the empty string); a ULID
value is its decoded 128-bit number (zero value: 0). -/

/-- The JSON tokens relevant to these decoders. -/
inductive JSONValue where
  | null
  | str (s : String)
  | other
  deriving DecidableEq

/-- `UnmarshalJSON` for the generic UUID type. -/
def uuidUnmarshalJSON (t : JSONValue) : Except String String :=
  match t with
  | .null => .ok (String.mk [])
  | .str s => if IsUUID s then .ok s else .error s
  | .other => .error (String.mk [])

/-- `UnmarshalJSON` for the versioned UUID types (UUID3/4/5/7). -/
def uuidVersionUnmarshalJSON (ver : Nat) (t : JSONValue) : Except String String :=
  match t with
  | .null => .ok (String.mk [])
  | .str s => if IsUUIDVersion ver s then .ok s else .error s
  | .other => .error (String.mk [])

/-- `UnmarshalJSON` for the ULID type, decoding to the 128-bit value. -/
def ulidUnmarshalJSON (t : JSONValue) : Except String Nat :=
  match t with
  | .null => .ok 0
  | .str s =>
    match ParseULID s with
    | some n => .ok n
    | none => .error s
  | .other => .error (String.mk [])

/-- C9: decoding JSON `null` into a UUID-family or ULID value yields the
type's zero value without error, while a JSON string whose content is
malformed for the format yields an error. -/
theorem C9_json_null_zero :
    uuidUnmarshalJSON JSONValue.null = Except.ok (String.mk []) ∧
    (∀ ver : Nat, uuidVersionUnmarshalJSON ver JSONValue.null = Except.ok (String.mk [])) ∧
    ulidUnmarshalJSON JSONValue.null = Except.ok 0 ∧
    (∀ s : String, IsUUID s = false →
      uuidUnmarshalJSON (JSONValue.str s) = Except.error s) ∧
    (∀ (ver : Nat) (s : String), IsUUIDVersion ver s = false →
      uuidVersionUnmarshalJSON ver (JSONValue.str s) = Except.error s) ∧
    (∀ s : String, IsULID s = false →
      ulidUnmarshalJSON (JSONValue.str s) = Except.error s) := by
  refine ⟨rfl, fun _ => rfl, rfl, ?_, ?_, ?_⟩
  · intro s h
    simp [uuidUnmarshalJSON, h]
  · intro ver s h
    simp [uuidVersionUnmarshalJSON, h]
  · intro s h
    simp [ulidUnmarshalJSON, ParseULID, h]

/-- Witness for C9: malformed samples for the generic UUID, UUID3 and ULID
decoders. -/
theorem C9_json_null_zero_witness :
    IsUUID ("not-a-uuid") = false ∧
    uuidUnmarshalJSON (JSONValue.str ("not-a-uuid")) = Except.error ("not-a-uuid") ∧
    IsUUIDVersion 3 ("b9cf00cf-8b4c-4a2e-9e43-1f2a3b4c5d6e") = false ∧
    uuidVersionUnmarshalJSON 3 (JSONValue.str ("b9cf00cf-8b4c-4a2e-9e43-1f2a3b4c5d6e")) =
      Except.error ("b9cf00cf-8b4c-4a2e-9e43-1f2a3b4c5d6e") ∧
    IsULID ("not-a-ulid") = false ∧
    ulidUnmarshalJSON (JSONValue.str ("not-a-ulid")) = Except.error ("not-a-ulid") :=
  ⟨by decide, C9_json_null_zero.2.2.2.1 ("not-a-uuid") (by decide),
   by decide,
   C9_json_null_zero.2.2.2.2.1 3 ("b9cf00cf-8b4c-4a2e-9e43-1f2a3b4c5d6e") (by decide),
   by decide, C9_json_null_zero.2.2.2.2.2 ("not-a-ulid") (by decide)⟩

/-! ## SQL `Scan` for string formats, ULID and DateTime

Modelled from the spec §6 (relational-store codec) and the behaviour fixed
by the repository's scan tests (`TestFormatULID_Scan`,
`TestDateTime_Scan_Failed`): the `Scan` implementations are not in the
source snapshot.  A scan source is a string, a byte slice, a native time
value, `nil`, or some other driver value (integers, floats).  String
formats accept strings and byte slices only; ULID additionally accepts
`nil` and the empty string as its zero value; DateTime accepts native time
values, maps `nil` to the Go zero time and the empty string to the unix
zero reference instant.  Time values are modelled by their count of seconds
since the Unix epoch. -/

/-- The kinds of values a SQL driver can hand to `Scan`. -/
inductive SQLSource where
  | nullSrc
  | strSrc (s : String)
  | bytesSrc (s : String)
  | timeSrc (t : Int)
  | intSrc (n : Int)
  | floatSrc (x : Int)
  deriving DecidableEq

/-- `Scan` shared by the plain string-backed format types (email, hostname,
URI, UUID, ...): strings and byte slices are taken verbatim, anything else
is an error. -/
def strFormatScan (src : SQLSource) : Except String String :=
  match src with
  | .strSrc s => .ok s
  | .bytesSrc s => .ok s
  | _ => .error (String.mk [])

/-- `Scan` for ULID: `nil` and the empty string give the zero ULID, other
strings and byte slices are parsed, anything else is an error. -/
def ulidScan (src : SQLSource) : Except String Nat :=
  match src with
  | .nullSrc => .ok 0
  | .strSrc s =>
    if s.data.isEmpty then .ok 0
    else
      match ParseULID s with
      | some n => .ok n
      | none => .error s
  | .bytesSrc s =>
    if s.data.isEmpty then .ok 0
    else
      match ParseULID s with
      | some n => .ok n
      | none => .error s
  | _ => .error (String.mk [])

/-- Days since the Unix epoch of a civil date (proleptic Gregorian). -/
def daysFromCivil (y : Int) (m d : Nat) : Int :=
  let y' : Int := if m ≤ 2 then y - 1 else y
  let era : Int := (if 0 ≤ y' then y' else y' - 399) / 400
  let yoe : Int := y' - era * 400
  let mp : Nat := (m + 9) % 12
  let doy : Int := (153 * (mp : Int) + 2) / 5 + (d : Int) - 1
  let doe : Int := yoe * 365 + yoe / 4 - yoe / 100 + doy
  era * 146097 + doe - 719468

example : daysFromCivil 1970 1 1 = 0 := by decide
example : daysFromCivil 1970 1 2 = 1 := by decide
example : daysFromCivil 1969 12 31 = -1 := by decide
example : daysFromCivil 2000 3 1 = 11017 := by decide

/-- The Go zero `time.Time` (0001-01-01T00:00:00Z) in seconds since the
Unix epoch. -/
def dtZeroSec : Int :=
  daysFromCivil 1 1 1 * 86400

example : dtZeroSec = -62135596800 := by decide

/-- Read exactly `n` decimal digits, accumulating their value. -/
def readDigitsAux : Nat → Nat → List Char → Option (Nat × List Char)
  | 0, acc, l => some (acc, l)
  | n + 1, acc, l =>
    match l with
    | c :: rest =>
      if isDigitChar c then readDigitsAux n (acc * 10 + (c.toNat - 48)) rest else none
    | [] => none

/-- Require a specific leading character. -/
def expectChar (e : Char) : List Char → Option (List Char)
  | c :: rest => if c == e then some rest else none
  | [] => none

/-- Skip an optional `.digits` fraction (at least one digit when present). -/
def dropFraction : List Char → Option (List Char)
  | '.' :: r =>
    match r with
    | c :: _ => if isDigitChar c then some (r.dropWhile isDigitChar) else none
    | [] => none
  | l => some l

/-- Parse the trailing timezone: `Z` (or `z`), or `±hh:mm`, returning the
offset in seconds. -/
def parseOffset : List Char → Option Int
  | ['Z'] => some 0
  | ['z'] => some 0
  | c :: rest =>
    if c == '+' || c == '-' then
      match readDigitsAux 2 0 rest with
      | none => none
      | some (oh, r1) =>
        match expectChar ':' r1 with
        | none => none
        | some r2 =>
          match readDigitsAux 2 0 r2 with
          | none => none
          | some (om, r3) =>
            if r3.isEmpty && oh ≤ 23 && om ≤ 59 then
              some (if c == '-' then -((oh : Int) * 3600 + (om : Int) * 60)
                    else (oh : Int) * 3600 + (om : Int) * 60)
            else none
    else none
  | [] => none

/-- Parse the `YYYY-MM-DD` date part, returning year, month, day and the
rest of the input. -/
def parseDatePart (l : List Char) : Option (Nat × Nat × Nat × List Char) :=
  match readDigitsAux 4 0 l with
  | none => none
  | some (y, r1) =>
    match expectChar '-' r1 with
    | none => none
    | some r2 =>
      match readDigitsAux 2 0 r2 with
      | none => none
      | some (mo, r3) =>
        match expectChar '-' r3 with
        | none => none
        | some r4 =>
          match readDigitsAux 2 0 r4 with
          | none => none
          | some (d, r5) => some (y, mo, d, r5)

/-- Parse the `Thh:mm:ss` time part, returning hour, minute, second and the
rest of the input. -/
def parseTimePart (l : List Char) : Option (Nat × Nat × Nat × List Char) :=
  match expectChar 'T' l with
  | none => none
  | some r0 =>
    match readDigitsAux 2 0 r0 with
    | none => none
    | some (h, r1) =>
      match expectChar ':' r1 with
      | none => none
      | some r2 =>
        match readDigitsAux 2 0 r2 with
        | none => none
        | some (mi, r3) =>
          match expectChar ':' r3 with
          | none => none
          | some r4 =>
            match readDigitsAux 2 0 r4 with
            | none => none
            | some (ss, r5) => some (h, mi, ss, r5)

/-- Parse an RFC3339 date-time `YYYY-MM-DDThh:mm:ss[.frac](Z|±hh:mm)` into
seconds since the Unix epoch. -/
def parseRFC3339 (l : List Char) : Option Int :=
  match parseDatePart l with
  | none => none
  | some (y, mo, d, r1) =>
    match parseTimePart r1 with
    | none => none
    | some (h, mi, ss, r2) =>
      match dropFraction r2 with
      | none => none
      | some r3 =>
        match parseOffset r3 with
        | none => none
        | some off =>
          if 1 ≤ mo && mo ≤ 12 && 1 ≤ d && d ≤ 31 && h ≤ 23 && mi ≤ 59 && ss ≤ 60 then
            some (daysFromCivil (y : Int) mo d * 86400 +
              (h : Int) * 3600 + (mi : Int) * 60 + (ss : Int) - off)
          else none

example : parseRFC3339 (String.data ("1970-01-01T00:00:00Z")) = some 0 := by decide
example : parseRFC3339 (String.data ("1970-01-01T00:00:00.123Z")) = some 0 := by decide
example : parseRFC3339 (String.data ("1970-01-01T01:00:00+01:00")) = some 0 := by decide
example : parseRFC3339 (String.data ("0001-01-01T00:00:00Z")) = some dtZeroSec := by decide
example : parseRFC3339 (String.data ("not-a-datetime")) = none := by decide

/-- `ParseDateTime`: the empty string is accepted as the unix zero reference
instant; otherwise the text must be a well-formed date-time. -/
def dtParse (s : String) : Except String Int :=
  if s.data.isEmpty then .ok 0
  else
    match parseRFC3339 s.data with
    | some n => .ok n
    | none => .error s

/-- `Scan` for DateTime: strings and byte slices are parsed, native time
values taken as-is, `nil` gives the Go zero time, anything else is an
error. -/
def dtScan (src : SQLSource) : Except String Int :=
  match src with
  | .nullSrc => .ok dtZeroSec
  | .strSrc s => dtParse s
  | .bytesSrc s => dtParse s
  | .timeSrc t => .ok t
  | .intSrc _ => .error (String.mk [])
  | .floatSrc _ => .error (String.mk [])

/-- Counterexample for C10: for DateTime, `Scan(nil)` and `Scan("")` both
succeed but produce different values — the Go zero time and the unix zero
reference instant — so they cannot both be "the type's zero value". -/
theorem C10_scan_counterexample :
    dtScan SQLSource.nullSrc = Except.ok dtZeroSec ∧
    dtScan (SQLSource.strSrc (String.mk [])) = Except.ok 0 ∧
    dtZeroSec ≠ 0 :=
  ⟨rfl, rfl, by decide⟩

/-- C10 (amended): integer and float scan sources are errors for every
modelled `Scan`; ULID maps `nil` and the empty string to the zero ULID;
DateTime maps `nil` to the Go zero time and the empty string to the unix
zero reference instant, and these two values differ. -/
theorem C10_scan_amended :
    (∀ n : Int, strFormatScan (SQLSource.intSrc n) = Except.error (String.mk []) ∧
      ulidScan (SQLSource.intSrc n) = Except.error (String.mk []) ∧
      dtScan (SQLSource.intSrc n) = Except.error (String.mk [])) ∧
    (∀ x : Int, strFormatScan (SQLSource.floatSrc x) = Except.error (String.mk []) ∧
      ulidScan (SQLSource.floatSrc x) = Except.error (String.mk []) ∧
      dtScan (SQLSource.floatSrc x) = Except.error (String.mk [])) ∧
    ulidScan SQLSource.nullSrc = Except.ok 0 ∧
    ulidScan (SQLSource.strSrc (String.mk [])) = Except.ok 0 ∧
    dtScan SQLSource.nullSrc = Except.ok dtZeroSec ∧
    dtScan (SQLSource.strSrc (String.mk [])) = Except.ok 0 ∧
    dtZeroSec ≠ 0 :=
  ⟨fun _ => ⟨rfl, rfl, rfl⟩, fun _ => ⟨rfl, rfl, rfl⟩, rfl, rfl, rfl, rfl, by decide⟩

end Strfmt
